import Mathlib

/-!
# Verification of the Auto-Scan core (DataManager / StockScanner)

Shallow embedding of `src/data_manager.py` and `src/stock_scanner.py`.

Modelling conventions:
* A pandas `DataFrame` built from a list of row dicts is modelled as the
  `List` of its rows in order; `pd.DataFrame(stock_data)` preserves the row
  order, `.copy()` is the identity in a functional model, and boolean-mask
  filtering (`df[mask]`) keeps matching rows in order, i.e. `List.filter`.
* `datetime` values are modelled as rational numbers counting minutes, so
  `timedelta(minutes=15)` is `+ 15`.
* `strftime` renders a timestamp to a string; the summaries keep the raw
  timestamp instead of its rendered text (the claims never inspect the text).
* Python `round(x, 2)` (round half to even at two decimals) is `pyRound2`.
* `random.uniform` / `random.randint` draws are inputs to the embedded
  fetch function, one stream per draw site, indexed by the loop position.
* The `threading.Lock` only serialises the method bodies; the embedding is
  the sequential semantics of those bodies.
-/

namespace AutoScan

/-- One row of a snapshot, as built by `_fetch_stock_data` and stored by
`DataManager.store_scan_data`. -/
structure QuoteRecord where
  symbol : String
  name : String
  price : ℚ
  change_percent : ℚ
  volume : ℕ
  market_cap : String
  sector : String
  scan_time : ℚ
  deriving Repr, DecidableEq

/-- One entry of the scan-history log, the dict passed to
`DataManager.add_scan_history` by `StockScanner._perform_scan`. -/
structure ScanSummary where
  scan_time : ℚ
  total_stocks : ℕ
  gainers : ℕ
  losers : ℕ
  status : String
  deriving Repr, DecidableEq

/-- The dict returned by `DataManager.get_statistics`. -/
structure Stats where
  total_stocks : ℕ
  gainers : ℕ
  losers : ℕ
  avg_volume : ℚ
  top_gainer : Option QuoteRecord
  top_loser : Option QuoteRecord
  deriving Repr, DecidableEq

/-- State of a `DataManager` instance (`src/data_manager.py`). -/
structure DataManager where
  current_scan_data : Option (List QuoteRecord)
  scan_history : List ScanSummary
  last_scan_time : Option ℚ
  next_scan_time : Option ℚ
  max_history_items : ℕ
  deriving Repr, DecidableEq

/-- Embeds `DataManager.__init__`. -/
def DataManager.init : DataManager :=
  { current_scan_data := none
    scan_history := []
    last_scan_time := none
    next_scan_time := none
    max_history_items := 100 }

/-- Embeds `DataManager.store_scan_data`: store snapshot, set last/next scan time
(`next = time + timedelta(minutes=15)`). -/
def DataManager.store_scan_data (dm : DataManager) (stock_data : List QuoteRecord)
    (scan_time : ℚ) : DataManager :=
  { dm with
    current_scan_data := some stock_data
    last_scan_time := some scan_time
    next_scan_time := some (scan_time + 15) }

/-- Embeds `DataManager.get_latest_scan_data` (`.copy()` is the identity here). -/
def DataManager.get_latest_scan_data (dm : DataManager) : Option (List QuoteRecord) :=
  dm.current_scan_data

/-- Embeds `DataManager.get_last_scan_time`. -/
def DataManager.get_last_scan_time (dm : DataManager) : Option ℚ :=
  dm.last_scan_time

/-- Embeds `DataManager.get_next_scan_time`. -/
def DataManager.get_next_scan_time (dm : DataManager) : Option ℚ :=
  dm.next_scan_time

/-- Python list slice `l[-n:]`: the last `n` items — except that `l[-0:]`
is the whole list. -/
def pySliceLast (n : ℕ) (l : List α) : List α :=
  if n = 0 then l else l.drop (l.length - n)

/-- Embeds `DataManager.add_scan_history`: append, then keep only the last
`max_history_items` entries when the cap is exceeded. -/
def DataManager.add_scan_history (dm : DataManager) (scan_info : ScanSummary) :
    DataManager :=
  let h := dm.scan_history ++ [scan_info]
  { dm with
    scan_history :=
      if dm.max_history_items < h.length then pySliceLast dm.max_history_items h else h }

/-- Embeds `DataManager.get_scan_history` (`.copy()` is the identity here). -/
def DataManager.get_scan_history (dm : DataManager) : List ScanSummary :=
  dm.scan_history

/-- Embeds `DataManager.get_filtered_data`: `None` when no data or the stored frame
is empty; otherwise market-cap, sector and price-range masks in sequence. -/
def DataManager.get_filtered_data (dm : DataManager)
    (market_cap_filter : String := "All") (sector_filter : String := "All")
    (price_range : ℚ × ℚ := (0, 10000)) : Option (List QuoteRecord) :=
  match dm.get_latest_scan_data with
  | none => none
  | some data =>
    if data.isEmpty then none
    else
      let f1 := if market_cap_filter ≠ "All"
        then data.filter (fun r => r.market_cap = market_cap_filter) else data
      let f2 := if sector_filter ≠ "All"
        then f1.filter (fun r => r.sector = sector_filter) else f1
      some (f2.filter (fun r => decide (price_range.1 ≤ r.price ∧ r.price ≤ price_range.2)))

/-- First row attaining the maximum of `f`, i.e. pandas
`data.loc[data[col].idxmax()]` (ties resolved to the first occurrence). -/
def idxmaxBy (f : QuoteRecord → ℚ) : List QuoteRecord → Option QuoteRecord
  | [] => none
  | x :: xs =>
    match idxmaxBy f xs with
    | none => some x
    | some y => if f x < f y then some y else some x

/-- First row attaining the minimum of `f`, i.e. pandas
`data.loc[data[col].idxmin()]` (ties resolved to the first occurrence). -/
def idxminBy (f : QuoteRecord → ℚ) : List QuoteRecord → Option QuoteRecord
  | [] => none
  | x :: xs =>
    match idxminBy f xs with
    | none => some x
    | some y => if f y < f x then some y else some x

/-- Embeds `DataManager.get_statistics`. -/
def DataManager.get_statistics (dm : DataManager) : Stats :=
  match dm.get_latest_scan_data with
  | none =>
    { total_stocks := 0, gainers := 0, losers := 0, avg_volume := 0
      top_gainer := none, top_loser := none }
  | some data =>
    if data.isEmpty then
      { total_stocks := 0, gainers := 0, losers := 0, avg_volume := 0
        top_gainer := none, top_loser := none }
    else
      { total_stocks := data.length
        gainers := (data.filter (fun r => decide (0 < r.change_percent))).length
        losers := (data.filter (fun r => decide (r.change_percent < 0))).length
        avg_volume := (data.map (fun r => (r.volume : ℚ))).sum / data.length
        top_gainer := idxmaxBy (fun r => r.change_percent) data
        top_loser := idxminBy (fun r => r.change_percent) data }

/-- Embeds `DataManager.clear_data` (the field `max_history_items` is untouched). -/
def DataManager.clear_data (dm : DataManager) : DataManager :=
  { dm with
    current_scan_data := none
    scan_history := []
    last_scan_time := none
    next_scan_time := none }

/-- Python built-in `round` to the nearest integer: half-way cases go to the
even neighbour. -/
def roundHalfEven (y : ℚ) : ℤ :=
  if y - ⌊y⌋ < 1/2 then ⌊y⌋
  else if (1 : ℚ)/2 < y - ⌊y⌋ then ⌊y⌋ + 1
  else if ⌊y⌋ % 2 = 0 then ⌊y⌋ else ⌊y⌋ + 1

/-- Python `round(x, 2)`. -/
def pyRound2 (x : ℚ) : ℚ :=
  (roundHalfEven (100 * x) : ℚ) / 100

/-- One entry of the `sample_stocks` table in `_fetch_stock_data`. -/
structure StockInfo where
  symbol : String
  name : String
  sector : String
  market_cap : String
  deriving Repr, DecidableEq

/-- The `sample_stocks` table of `_fetch_stock_data`, in source order. -/
def sample_stocks : List StockInfo :=
  [ ⟨"RELIANCE", "Reliance Industries Ltd", "Energy", "Large Cap"⟩,
    ⟨"TCS", "Tata Consultancy Services", "IT", "Large Cap"⟩,
    ⟨"HDFCBANK", "HDFC Bank Ltd", "Banking", "Large Cap"⟩,
    ⟨"INFY", "Infosys Ltd", "IT", "Large Cap"⟩,
    ⟨"HINDUNILVR", "Hindustan Unilever Ltd", "FMCG", "Large Cap"⟩,
    ⟨"ICICIBANK", "ICICI Bank Ltd", "Banking", "Large Cap"⟩,
    ⟨"KOTAKBANK", "Kotak Mahindra Bank", "Banking", "Large Cap"⟩,
    ⟨"BAJFINANCE", "Bajaj Finance Ltd", "Banking", "Large Cap"⟩,
    ⟨"MARUTI", "Maruti Suzuki India Ltd", "Auto", "Large Cap"⟩,
    ⟨"SUNPHARMA", "Sun Pharmaceutical Industries", "Pharma", "Large Cap"⟩,
    ⟨"WIPRO", "Wipro Ltd", "IT", "Large Cap"⟩,
    ⟨"TECHM", "Tech Mahindra Ltd", "IT", "Large Cap"⟩,
    ⟨"HCLTECH", "HCL Technologies Ltd", "IT", "Large Cap"⟩,
    ⟨"DRREDDY", "Dr Reddys Laboratories", "Pharma", "Large Cap"⟩,
    ⟨"CIPLA", "Cipla Ltd", "Pharma", "Large Cap"⟩,
    ⟨"TATAMOTORS", "Tata Motors Ltd", "Auto", "Large Cap"⟩,
    ⟨"BAJAJFINSV", "Bajaj Finserv Ltd", "Banking", "Large Cap"⟩,
    ⟨"NESTLEIND", "Nestle India Ltd", "FMCG", "Large Cap"⟩,
    ⟨"TITAN", "Titan Company Ltd", "FMCG", "Large Cap"⟩,
    ⟨"ASIANPAINT", "Asian Paints Ltd", "FMCG", "Large Cap"⟩ ]

/-- State of a `StockScanner` instance; `data_manager` is its (mutable)
collaborator, so it is carried in the state. -/
structure StockScanner where
  data_manager : DataManager
  is_running : Bool
  total_scans : ℕ
  last_scan_time : Option ℚ
  next_scan_time : Option ℚ
  scan_interval_minutes : ℚ
  deriving Repr, DecidableEq

/-- Embeds `StockScanner.__init__`. -/
def StockScanner.init (dm : DataManager) : StockScanner :=
  { data_manager := dm
    is_running := false
    total_scans := 0
    last_scan_time := none
    next_scan_time := none
    scan_interval_minutes := 15 }

/-- Embeds `StockScanner._fetch_stock_data`.  `current_time` is `datetime.now()`;
the per-stock draws `random.uniform(100, 3000)`, `random.uniform(-5, 5)` and
`random.randint(100000, 10000000)` are modelled as input streams `rPrice`,
`rChange`, `rVolume` indexed by the loop position. -/
def StockScanner.fetch_stock_data (current_time : ℚ)
    (rPrice rChange : ℕ → ℚ) (rVolume : ℕ → ℕ) : List QuoteRecord :=
  sample_stocks.enum.map fun p =>
    { symbol := p.2.symbol
      name := p.2.name
      price := pyRound2 (rPrice p.1)
      change_percent := pyRound2 (rChange p.1)
      volume := rVolume p.1
      market_cap := p.2.market_cap
      sector := p.2.sector
      scan_time := current_time }

/-- Embeds `StockScanner._perform_scan`, one scan cycle.  `scan_start_time` is the
`datetime.now()` read at the top; `fetch_result` is the outcome of the
`_fetch_stock_data()` call (`Except.error` when it raises); `error_time` is
the `datetime.now()` read inside the `except` handler.  `print` calls are
side-effect free and dropped. -/
def StockScanner.perform_scan (s : StockScanner) (scan_start_time : ℚ)
    (fetch_result : Except String (List QuoteRecord)) (error_time : ℚ) :
    StockScanner :=
  match fetch_result with
  | .ok stock_data =>
    if ¬ stock_data.isEmpty then
      let dm1 := s.data_manager.store_scan_data stock_data scan_start_time
      let dm2 := dm1.add_scan_history
        { scan_time := scan_start_time
          total_stocks := stock_data.length
          gainers := (stock_data.filter (fun r => decide (0 < r.change_percent))).length
          losers := (stock_data.filter (fun r => decide (r.change_percent < 0))).length
          status := "Success" }
      { s with
        data_manager := dm2
        total_scans := s.total_scans + 1
        last_scan_time := some scan_start_time
        next_scan_time := some (scan_start_time + s.scan_interval_minutes) }
    else s
  | .error e =>
    { s with
      data_manager := s.data_manager.add_scan_history
        { scan_time := error_time
          total_stocks := 0
          gainers := 0
          losers := 0
          status := "Error: " ++ e } }

/-! ## Helper lemmas -/

/-- Appending one summary while the log is strictly under the cap is a plain
append (no eviction). -/
theorem DataManager.add_scan_history_under_cap (dm : DataManager) (e : ScanSummary)
    (h : dm.scan_history.length < dm.max_history_items) :
    (dm.add_scan_history e).scan_history = dm.scan_history ++ [e] := by
  have hc : ¬ dm.max_history_items < dm.scan_history.length + 1 := by omega
  simp [DataManager.add_scan_history, hc]

/-- Two pointwise-exclusive filters of one list together keep at most all of
it. -/
theorem length_filter_add_length_filter_le {α : Type} (p q : α → Bool) (l : List α)
    (h : ∀ x ∈ l, ¬(p x = true ∧ q x = true)) :
    (l.filter p).length + (l.filter q).length ≤ l.length := by
  induction l with
  | nil => simp
  | cons x xs ih =>
    have hx := h x (List.mem_cons_self x xs)
    have ihx := ih (fun y hy => h y (List.mem_cons_of_mem x hy))
    by_cases hp : p x = true
    · have hq : q x = false := by
        cases hqe : q x with
        | false => rfl
        | true => exact absurd ⟨hp, hqe⟩ hx
      simp only [List.filter_cons, hp, hq, if_true, if_false, List.length_cons,
        Bool.false_eq_true, ite_false, ite_true]
      omega
    · have hp' : p x = false := by
        cases hpe : p x with
        | false => rfl
        | true => exact absurd hpe hp
      cases hqe : q x with
      | false =>
        simp only [List.filter_cons, hp', hqe, Bool.false_eq_true, ite_false,
          List.length_cons]
        omega
      | true =>
        simp only [List.filter_cons, hp', hqe, Bool.false_eq_true, ite_false,
          ite_true, List.length_cons]
        omega

/-- The method `add_scan_history` touches only the history log. -/
theorem DataManager.add_scan_history_current (dm : DataManager) (e : ScanSummary) :
    (dm.add_scan_history e).current_scan_data = dm.current_scan_data := rfl

/-- The method `add_scan_history` leaves `last_scan_time` alone. -/
theorem DataManager.add_scan_history_last (dm : DataManager) (e : ScanSummary) :
    (dm.add_scan_history e).last_scan_time = dm.last_scan_time := rfl

/-- The method `add_scan_history` leaves `next_scan_time` alone. -/
theorem DataManager.add_scan_history_next (dm : DataManager) (e : ScanSummary) :
    (dm.add_scan_history e).next_scan_time = dm.next_scan_time := rfl

/-! ## Claims -/

/-- Claim C1: after `store_scan_data S2 t2`, `get_latest_scan_data` returns
exactly S2, `get_last_scan_time` returns t2, and `get_next_scan_time` returns
t2 plus the fixed 15-minute interval — the three reads come from the single
post-store state, never a mix. -/
theorem C1_store_then_read_consistent (dm : DataManager) (S2 : List QuoteRecord) (t2 : ℚ) :
    (dm.store_scan_data S2 t2).get_latest_scan_data = some S2 ∧
    (dm.store_scan_data S2 t2).get_last_scan_time = some t2 ∧
    (dm.store_scan_data S2 t2).get_next_scan_time = some (t2 + 15) :=
  ⟨rfl, rfl, rfl⟩

/-- Claim C2: a scan cycle whose fetch raises an error appends exactly one
summary with `Error` status and leaves `total_scans`, the scanner's and the
store's `last_scan_time`/`next_scan_time`, and the stored snapshot unchanged. -/
theorem C2_error_cycle_appends_one_error (s : StockScanner) (t et : ℚ) (msg : String)
    (hcap : s.data_manager.scan_history.length < s.data_manager.max_history_items) :
    ∃ e : ScanSummary,
      e.status = "Error: " ++ msg ∧
      (s.perform_scan t (Except.error msg) et).data_manager.scan_history
        = s.data_manager.scan_history ++ [e] ∧
      (s.perform_scan t (Except.error msg) et).total_scans = s.total_scans ∧
      (s.perform_scan t (Except.error msg) et).last_scan_time = s.last_scan_time ∧
      (s.perform_scan t (Except.error msg) et).next_scan_time = s.next_scan_time ∧
      (s.perform_scan t (Except.error msg) et).data_manager.current_scan_data
        = s.data_manager.current_scan_data ∧
      (s.perform_scan t (Except.error msg) et).data_manager.last_scan_time
        = s.data_manager.last_scan_time ∧
      (s.perform_scan t (Except.error msg) et).data_manager.next_scan_time
        = s.data_manager.next_scan_time := by
  exact ⟨⟨et, 0, 0, 0, "Error: " ++ msg⟩, rfl,
    DataManager.add_scan_history_under_cap _ _ hcap, rfl, rfl, rfl, rfl, rfl, rfl⟩

/-- Witness for C2 at a concrete input. -/
theorem C2_error_cycle_appends_one_error_witness :
    ∃ e : ScanSummary,
      e.status = "Error: " ++ "boom" ∧
      ((StockScanner.init DataManager.init).perform_scan 0 (Except.error ("boom"))
          1).data_manager.scan_history
        = (StockScanner.init DataManager.init).data_manager.scan_history ++ [e] ∧
      ((StockScanner.init DataManager.init).perform_scan 0 (Except.error ("boom"))
          1).total_scans = (StockScanner.init DataManager.init).total_scans ∧
      ((StockScanner.init DataManager.init).perform_scan 0 (Except.error ("boom"))
          1).last_scan_time = (StockScanner.init DataManager.init).last_scan_time ∧
      ((StockScanner.init DataManager.init).perform_scan 0 (Except.error ("boom"))
          1).next_scan_time = (StockScanner.init DataManager.init).next_scan_time ∧
      ((StockScanner.init DataManager.init).perform_scan 0 (Except.error ("boom"))
          1).data_manager.current_scan_data
        = (StockScanner.init DataManager.init).data_manager.current_scan_data ∧
      ((StockScanner.init DataManager.init).perform_scan 0 (Except.error ("boom"))
          1).data_manager.last_scan_time
        = (StockScanner.init DataManager.init).data_manager.last_scan_time ∧
      ((StockScanner.init DataManager.init).perform_scan 0 (Except.error ("boom"))
          1).data_manager.next_scan_time
        = (StockScanner.init DataManager.init).data_manager.next_scan_time :=
  C2_error_cycle_appends_one_error (StockScanner.init DataManager.init) 0 1 ("boom")
    (by decide)

/-- Claim C3: a scan cycle whose fetch returns a non-empty list stores that
list with the cycle's start time, increments `total_scans` by one, and appends
exactly one `Success` summary whose counts are the list length, the number of
records with positive `change_percent`, and the number with negative
`change_percent`; gainers plus losers never exceed the total. -/
theorem C3_success_cycle_stores_and_counts (s : StockScanner) (t et : ℚ)
    (data : List QuoteRecord) (hne : data ≠ [])
    (hcap : s.data_manager.scan_history.length < s.data_manager.max_history_items) :
    (s.perform_scan t (Except.ok data) et).data_manager.current_scan_data = some data ∧
    (s.perform_scan t (Except.ok data) et).data_manager.last_scan_time = some t ∧
    (s.perform_scan t (Except.ok data) et).total_scans = s.total_scans + 1 ∧
    ∃ e : ScanSummary,
      (s.perform_scan t (Except.ok data) et).data_manager.scan_history
        = s.data_manager.scan_history ++ [e] ∧
      e.status = "Success" ∧
      e.total_stocks = data.length ∧
      e.gainers = (data.filter (fun r => decide (0 < r.change_percent))).length ∧
      e.losers = (data.filter (fun r => decide (r.change_percent < 0))).length ∧
      e.gainers + e.losers ≤ e.total_stocks := by
  have hemp : data.isEmpty = false := by
    cases data with
    | nil => exact absurd rfl hne
    | cons a l => rfl
  have hcond : ¬ data.isEmpty = true := by simp [hemp]
  have hgl : (data.filter (fun r => decide (0 < r.change_percent))).length
      + (data.filter (fun r => decide (r.change_percent < 0))).length ≤ data.length := by
    refine length_filter_add_length_filter_le _ _ data ?_
    intro x _ hx
    have h1 := of_decide_eq_true hx.1
    have h2 := of_decide_eq_true hx.2
    exact absurd (h1.trans h2) (lt_irrefl _)
  have hist : (s.perform_scan t (Except.ok data) et).data_manager.scan_history
      = s.data_manager.scan_history ++ [⟨t, data.length,
          (data.filter (fun r => decide (0 < r.change_percent))).length,
          (data.filter (fun r => decide (r.change_percent < 0))).length, "Success"⟩] := by
    simp only [StockScanner.perform_scan, if_pos hcond]
    exact DataManager.add_scan_history_under_cap _ _ hcap
  refine ⟨?_, ?_, ?_, ⟨t, data.length,
      (data.filter (fun r => decide (0 < r.change_percent))).length,
      (data.filter (fun r => decide (r.change_percent < 0))).length, "Success"⟩,
      hist, rfl, rfl, rfl, rfl, hgl⟩ <;>
    simp only [StockScanner.perform_scan, if_pos hcond] <;> rfl

/-- Witness for C3 at a concrete input. -/
theorem C3_success_cycle_stores_and_counts_witness :
    (((StockScanner.init DataManager.init).perform_scan 2 (Except.ok
        [⟨"AAA", "A", 50, 2, 10, "Small Cap", "IT", 2⟩]) 3).data_manager.current_scan_data
      = some [⟨"AAA", "A", 50, 2, 10, "Small Cap", "IT", 2⟩]) ∧
    (((StockScanner.init DataManager.init).perform_scan 2 (Except.ok
        [⟨"AAA", "A", 50, 2, 10, "Small Cap", "IT", 2⟩]) 3).data_manager.last_scan_time
      = some 2) ∧
    (((StockScanner.init DataManager.init).perform_scan 2 (Except.ok
        [⟨"AAA", "A", 50, 2, 10, "Small Cap", "IT", 2⟩]) 3).total_scans
      = (StockScanner.init DataManager.init).total_scans + 1) ∧
    ∃ e : ScanSummary,
      ((StockScanner.init DataManager.init).perform_scan 2 (Except.ok
          [⟨"AAA", "A", 50, 2, 10, "Small Cap", "IT", 2⟩]) 3).data_manager.scan_history
        = (StockScanner.init DataManager.init).data_manager.scan_history ++ [e] ∧
      e.status = "Success" ∧
      e.total_stocks = [(⟨"AAA", "A", 50, 2, 10, "Small Cap", "IT", 2⟩ : QuoteRecord)].length ∧
      e.gainers = ([(⟨"AAA", "A", 50, 2, 10, "Small Cap", "IT", 2⟩ : QuoteRecord)].filter
          (fun r => decide (0 < r.change_percent))).length ∧
      e.losers = ([(⟨"AAA", "A", 50, 2, 10, "Small Cap", "IT", 2⟩ : QuoteRecord)].filter
          (fun r => decide (r.change_percent < 0))).length ∧
      e.gainers + e.losers ≤ e.total_stocks :=
  C3_success_cycle_stores_and_counts (StockScanner.init DataManager.init) 2 3
    [⟨"AAA", "A", 50, 2, 10, "Small Cap", "IT", 2⟩] (by decide) (by decide)

/-- A sequence of `add_scan_history` calls, in order. -/
def DataManager.addAll (dm : DataManager) (infos : List ScanSummary) : DataManager :=
  infos.foldl DataManager.add_scan_history dm

/-- Closed form for `addAll`: provided the cap is positive and the log starts
within the cap, the log after a sequence of appends is the tail of the
concatenation that fits under the cap. -/
theorem DataManager.addAll_scan_history (infos : List ScanSummary) :
    ∀ dm : DataManager, 0 < dm.max_history_items →
      dm.scan_history.length ≤ dm.max_history_items →
      (dm.addAll infos).scan_history
        = (dm.scan_history ++ infos).drop
            (dm.scan_history.length + infos.length - dm.max_history_items) := by
  induction infos with
  | nil =>
    intro dm h0 h1
    simp [DataManager.addAll, Nat.sub_eq_zero_of_le h1]
  | cons x xs ih =>
    intro dm h0 h1
    have hstep : dm.addAll (x :: xs) = (dm.add_scan_history x).addAll xs := rfl
    have hmax : (dm.add_scan_history x).max_history_items = dm.max_history_items := rfl
    rcases lt_or_eq_of_le h1 with hlt | heq
    · have hnotrim : (dm.add_scan_history x).scan_history = dm.scan_history ++ [x] :=
        DataManager.add_scan_history_under_cap dm x hlt
      have hlen : (dm.add_scan_history x).scan_history.length ≤ dm.max_history_items := by
        rw [hnotrim]
        simp only [List.length_append, List.length_singleton, List.length_nil]
        omega
      have := ih (dm.add_scan_history x) (by rw [hmax]; exact h0) (by rw [hmax]; exact hlen)
      rw [hstep, this, hmax, hnotrim]
      have hoff : (dm.scan_history ++ [x]).length + xs.length - dm.max_history_items
          = dm.scan_history.length + (x :: xs).length - dm.max_history_items := by
        simp only [List.length_append, List.length_singleton, List.length_nil, List.length_cons]
        omega
      have hlist : (dm.scan_history ++ [x]) ++ xs = dm.scan_history ++ x :: xs := by
        simp
      rw [hoff, hlist]
    · have htrim : dm.max_history_items < (dm.scan_history ++ [x]).length := by
        simp only [List.length_append, List.length_singleton, List.length_nil]
        omega
      have hne : dm.max_history_items ≠ 0 := by omega
      have hhist : (dm.add_scan_history x).scan_history
          = (dm.scan_history ++ [x]).drop 1 := by
        simp only [DataManager.add_scan_history, htrim, if_true, pySliceLast, hne,
          ite_false, if_neg hne]
        congr 1
        simp only [List.length_append, List.length_singleton, List.length_nil]
        omega
      have hlen : (dm.add_scan_history x).scan_history.length ≤ dm.max_history_items := by
        rw [hhist]
        simp only [List.length_drop, List.length_append, List.length_singleton, List.length_nil]
        omega
      have := ih (dm.add_scan_history x) (by rw [hmax]; exact h0) (by rw [hmax]; exact hlen)
      rw [hstep, this, hmax, hhist]
      have h1le : 1 ≤ (dm.scan_history ++ [x]).length := by
        simp only [List.length_append, List.length_singleton, List.length_nil]
        omega
      rw [← List.drop_append_of_le_length h1le, List.drop_drop]
      have hidx : ((dm.scan_history ++ [x]).drop 1).length + xs.length
            - dm.max_history_items = xs.length := by
        simp only [List.length_drop, List.length_append, List.length_singleton, List.length_nil]
        omega
      rw [hidx]
      have hidx2 : dm.scan_history.length + (x :: xs).length - dm.max_history_items
          = xs.length + 1 := by
        simp only [List.length_cons]
        omega
      rw [hidx2]
      have hlist : (dm.scan_history ++ [x]) ++ xs = dm.scan_history ++ x :: xs := by
        simp
      rw [hlist, Nat.add_comm 1 xs.length]

/-- Claim C4: the history log never exceeds the cap, and after appending more
than `max_history_items` summaries the log is exactly the most recent
`max_history_items` of them, oldest first. -/
theorem C4_history_bounded_fifo (dm : DataManager) (infos : List ScanSummary)
    (h0 : 0 < dm.max_history_items)
    (h1 : dm.scan_history.length ≤ dm.max_history_items) :
    (dm.addAll infos).get_scan_history.length ≤ dm.max_history_items ∧
    (dm.max_history_items < infos.length →
      (dm.addAll infos).get_scan_history
          = infos.drop (infos.length - dm.max_history_items) ∧
      (dm.addAll infos).get_scan_history.length = dm.max_history_items) := by
  have hcf := DataManager.addAll_scan_history infos dm h0 h1
  constructor
  · show (dm.addAll infos).scan_history.length ≤ dm.max_history_items
    rw [hcf]
    simp only [List.length_drop, List.length_append]
    omega
  · intro hgt
    have hsplit : dm.scan_history.length + infos.length - dm.max_history_items
        = dm.scan_history.length + (infos.length - dm.max_history_items) := by omega
    have heq : (dm.addAll infos).scan_history
        = infos.drop (infos.length - dm.max_history_items) := by
      rw [hcf, hsplit, List.drop_append]
    refine ⟨heq, ?_⟩
    show (dm.addAll infos).scan_history.length = dm.max_history_items
    rw [heq]
    simp only [List.length_drop]
    omega

/-- A `DataManager` with the history cap lowered to 2, for exercising
eviction on a short input. -/
def dmCapTwo : DataManager :=
  { current_scan_data := none
    scan_history := []
    last_scan_time := none
    next_scan_time := none
    max_history_items := 2 }

/-- A throwaway summary used in concrete instantiations. -/
def mkSummary (n : ℕ) : ScanSummary :=
  { scan_time := n, total_stocks := n, gainers := 0, losers := 0, status := "Success" }

/-- Witness for C4 at a concrete input: cap 2, three appends. -/
theorem C4_history_bounded_fifo_witness :
    (dmCapTwo.addAll [mkSummary 1, mkSummary 2, mkSummary 3]).get_scan_history.length
        ≤ dmCapTwo.max_history_items ∧
    (dmCapTwo.max_history_items < ([mkSummary 1, mkSummary 2, mkSummary 3] :
        List ScanSummary).length →
      (dmCapTwo.addAll [mkSummary 1, mkSummary 2, mkSummary 3]).get_scan_history
          = ([mkSummary 1, mkSummary 2, mkSummary 3] : List ScanSummary).drop
              (([mkSummary 1, mkSummary 2, mkSummary 3] : List ScanSummary).length
                - dmCapTwo.max_history_items) ∧
      (dmCapTwo.addAll [mkSummary 1, mkSummary 2, mkSummary 3]).get_scan_history.length
          = dmCapTwo.max_history_items) :=
  C4_history_bounded_fifo dmCapTwo [mkSummary 1, mkSummary 2, mkSummary 3]
    (by decide) (by decide)

/-- Claim C5: on a non-empty stored snapshot, `get_filtered_data` returns a
subsequence of the snapshot (relative order preserved) whose every record
matches the market-cap filter unless it is "All", the sector filter unless it
is "All", and lies in the inclusive price range. -/
theorem C5_filtered_is_matching_subsequence (dm : DataManager) (mcf sf : String)
    (lo hi : ℚ) (data : List QuoteRecord)
    (hd : dm.current_scan_data = some data) (hne : data ≠ []) :
    ∃ out, dm.get_filtered_data mcf sf (lo, hi) = some out ∧
      out.Sublist data ∧
      ∀ r ∈ out, (mcf ≠ "All" → r.market_cap = mcf) ∧
        (sf ≠ "All" → r.sector = sf) ∧ lo ≤ r.price ∧ r.price ≤ hi := by
  have hemp : data.isEmpty = false := by
    cases data with
    | nil => exact absurd rfl hne
    | cons a l => rfl
  by_cases hm : mcf = "All" <;> by_cases hs : sf = "All" <;>
    simp only [DataManager.get_filtered_data, DataManager.get_latest_scan_data, hd,
      hemp, Bool.false_eq_true, if_false, ite_false, hm, hs, ne_eq, not_true_eq_false,
      not_false_eq_true, if_true, ite_true, if_false, ite_false, not_not] <;>
    refine ⟨_, rfl, ?_, ?_⟩
  · exact List.filter_sublist data
  · intro r hr
    rcases List.mem_filter.1 hr with ⟨_, hpr⟩
    rcases of_decide_eq_true hpr with ⟨h1, h2⟩
    exact ⟨fun h => h.elim, fun h => h.elim, h1, h2⟩
  · exact (List.filter_sublist _).trans (List.filter_sublist data)
  · intro r hr
    rcases List.mem_filter.1 hr with ⟨hr2, hpr⟩
    rcases List.mem_filter.1 hr2 with ⟨_, hsec⟩
    rcases of_decide_eq_true hpr with ⟨h1, h2⟩
    exact ⟨fun h => h.elim, fun _ => of_decide_eq_true hsec, h1, h2⟩
  · exact (List.filter_sublist _).trans (List.filter_sublist data)
  · intro r hr
    rcases List.mem_filter.1 hr with ⟨hr2, hpr⟩
    rcases List.mem_filter.1 hr2 with ⟨_, hcap⟩
    rcases of_decide_eq_true hpr with ⟨h1, h2⟩
    exact ⟨fun _ => of_decide_eq_true hcap, fun h => h.elim, h1, h2⟩
  · exact ((List.filter_sublist _).trans (List.filter_sublist _)).trans
      (List.filter_sublist data)
  · intro r hr
    rcases List.mem_filter.1 hr with ⟨hr2, hpr⟩
    rcases List.mem_filter.1 hr2 with ⟨hr3, hsec⟩
    rcases List.mem_filter.1 hr3 with ⟨_, hcap⟩
    rcases of_decide_eq_true hpr with ⟨h1, h2⟩
    exact ⟨fun _ => of_decide_eq_true hcap, fun _ => of_decide_eq_true hsec, h1, h2⟩

/-- A two-record snapshot used to instantiate the filter and statistics
claims (the concrete scenario of the spec's §8). -/
def snapAB : List QuoteRecord :=
  [ ⟨"AAA", "A", 50, 2, 10, "Small Cap", "IT", 0⟩,
    ⟨"BBB", "B", 5000, -1, 20, "Large Cap", "Banking", 0⟩ ]

/-- A `DataManager` holding `snapAB`. -/
def dmAB : DataManager :=
  { current_scan_data := some snapAB
    scan_history := []
    last_scan_time := some 0
    next_scan_time := some 15
    max_history_items := 100 }

/-- Witness for C5 at a concrete input. -/
theorem C5_filtered_is_matching_subsequence_witness :
    ∃ out, dmAB.get_filtered_data ("Small Cap") ("All") (0, 100) = some out ∧
      out.Sublist snapAB ∧
      ∀ r ∈ out, ("Small Cap" ≠ "All" → r.market_cap = "Small Cap") ∧
        ("All" ≠ "All" → r.sector = "All") ∧ (0 : ℚ) ≤ r.price ∧ r.price ≤ 100 :=
  C5_filtered_is_matching_subsequence dmAB ("Small Cap") ("All") 0 100 snapAB rfl
    (by decide)

/-- Claim C6: with both categorical filters at "All" and a price range covering
every record, `get_filtered_data` on a non-empty stored snapshot returns the
snapshot itself. -/
theorem C6_filter_all_is_identity (dm : DataManager) (data : List QuoteRecord)
    (hd : dm.current_scan_data = some data) (hne : data ≠ []) (lo hi : ℚ)
    (hcover : ∀ r ∈ data, lo ≤ r.price ∧ r.price ≤ hi) :
    dm.get_filtered_data ("All") ("All") (lo, hi) = some data := by
  have hemp : data.isEmpty = false := by
    cases data with
    | nil => exact absurd rfl hne
    | cons a l => rfl
  simp only [DataManager.get_filtered_data, DataManager.get_latest_scan_data, hd,
    hemp, Bool.false_eq_true, if_false, ite_false, ne_eq, not_true_eq_false,
    if_false, ite_false]
  congr 1
  exact List.filter_eq_self.2 (fun r hr => decide_eq_true (hcover r hr))

/-- Witness for C6 at a concrete input. -/
theorem C6_filter_all_is_identity_witness :
    dmAB.get_filtered_data ("All") ("All") (0, 10000) = some snapAB :=
  C6_filter_all_is_identity dmAB snapAB rfl (by decide) 0 10000 (by decide)

/-- The all-zero statistics dict, as returned for an absent or empty
snapshot. -/
def emptyStats : Stats :=
  { total_stocks := 0, gainers := 0, losers := 0, avg_volume := 0
    top_gainer := none, top_loser := none }

/-- The function `idxmaxBy` returns the first occurrence of the maximum: every element is
below it, and everything strictly before it is strictly below it. -/
theorem idxmaxBy_first_max (f : QuoteRecord → ℚ) :
    ∀ l : List QuoteRecord, l ≠ [] →
      ∃ r l1 l2, idxmaxBy f l = some r ∧ l = l1 ++ r :: l2 ∧
        (∀ s ∈ l, f s ≤ f r) ∧ (∀ s ∈ l1, f s < f r) := by
  intro l
  induction l with
  | nil => intro h; exact absurd rfl h
  | cons x xs ih =>
    intro _
    by_cases hxs : xs = []
    · subst hxs
      refine ⟨x, [], [], rfl, rfl, ?_, ?_⟩
      · intro s hs
        rcases List.mem_cons.1 hs with rfl | hs2
        · exact le_refl _
        · cases hs2
      · intro s hs
        cases hs
    · obtain ⟨y, l1, l2, hy, hsplit, hmax, hstrict⟩ := ih hxs
      have hred : idxmaxBy f (x :: xs) = if f x < f y then some y else some x := by
        simp only [idxmaxBy, hy]
      by_cases hxy : f x < f y
      · refine ⟨y, x :: l1, l2, ?_, ?_, ?_, ?_⟩
        · rw [hred, if_pos hxy]
        · rw [hsplit]
          rfl
        · intro s hs
          rcases List.mem_cons.1 hs with rfl | hs2
          · exact le_of_lt hxy
          · exact hmax s hs2
        · intro s hs
          rcases List.mem_cons.1 hs with rfl | hs2
          · exact hxy
          · exact hstrict s hs2
      · refine ⟨x, [], xs, ?_, rfl, ?_, ?_⟩
        · rw [hred, if_neg hxy]
        · intro s hs
          rcases List.mem_cons.1 hs with rfl | hs2
          · exact le_refl _
          · exact le_trans (hmax s hs2) (not_lt.1 hxy)
        · intro s hs
          cases hs

/-- The function `idxminBy` returns the first occurrence of the minimum: every element is
above it, and everything strictly before it is strictly above it. -/
theorem idxminBy_first_min (f : QuoteRecord → ℚ) :
    ∀ l : List QuoteRecord, l ≠ [] →
      ∃ r l1 l2, idxminBy f l = some r ∧ l = l1 ++ r :: l2 ∧
        (∀ s ∈ l, f r ≤ f s) ∧ (∀ s ∈ l1, f r < f s) := by
  intro l
  induction l with
  | nil => intro h; exact absurd rfl h
  | cons x xs ih =>
    intro _
    by_cases hxs : xs = []
    · subst hxs
      refine ⟨x, [], [], rfl, rfl, ?_, ?_⟩
      · intro s hs
        rcases List.mem_cons.1 hs with rfl | hs2
        · exact le_refl _
        · cases hs2
      · intro s hs
        cases hs
    · obtain ⟨y, l1, l2, hy, hsplit, hmin, hstrict⟩ := ih hxs
      have hred : idxminBy f (x :: xs) = if f y < f x then some y else some x := by
        simp only [idxminBy, hy]
      by_cases hxy : f y < f x
      · refine ⟨y, x :: l1, l2, ?_, ?_, ?_, ?_⟩
        · rw [hred, if_pos hxy]
        · rw [hsplit]
          rfl
        · intro s hs
          rcases List.mem_cons.1 hs with rfl | hs2
          · exact le_of_lt hxy
          · exact hmin s hs2
        · intro s hs
          rcases List.mem_cons.1 hs with rfl | hs2
          · exact hxy
          · exact hstrict s hs2
      · refine ⟨x, [], xs, ?_, rfl, ?_, ?_⟩
        · rw [hred, if_neg hxy]
        · intro s hs
          rcases List.mem_cons.1 hs with rfl | hs2
          · exact le_refl _
          · exact le_trans (not_lt.1 hxy) (hmin s hs2)
        · intro s hs
          cases hs

/-- Claim C7: `get_statistics` on an absent or empty snapshot is all zeroes
with no extrema; on a non-empty snapshot `top_gainer` / `top_loser` are the
records of maximum / minimum `change_percent`, ties broken by first
occurrence in snapshot order. -/
theorem C7_statistics_empty_and_extrema (dm : DataManager) :
    ((dm.current_scan_data = none ∨ dm.current_scan_data = some []) →
      dm.get_statistics = emptyStats) ∧
    (∀ data, dm.current_scan_data = some data → data ≠ [] →
      (∃ g l1 l2, dm.get_statistics.top_gainer = some g ∧ data = l1 ++ g :: l2 ∧
        (∀ s ∈ data, s.change_percent ≤ g.change_percent) ∧
        (∀ s ∈ l1, s.change_percent < g.change_percent)) ∧
      (∃ w m1 m2, dm.get_statistics.top_loser = some w ∧ data = m1 ++ w :: m2 ∧
        (∀ s ∈ data, w.change_percent ≤ s.change_percent) ∧
        (∀ s ∈ m1, w.change_percent < s.change_percent))) := by
  constructor
  · rintro (h | h) <;>
      · simp [DataManager.get_statistics, DataManager.get_latest_scan_data, h]
        rfl
  · intro data hd hne
    have hemp : data.isEmpty = false := by
      cases data with
      | nil => exact absurd rfl hne
      | cons a l => rfl
    have hgain : dm.get_statistics.top_gainer
        = idxmaxBy (fun r => r.change_percent) data := by
      simp [DataManager.get_statistics, DataManager.get_latest_scan_data, hd, hemp]
    have hloss : dm.get_statistics.top_loser
        = idxminBy (fun r => r.change_percent) data := by
      simp [DataManager.get_statistics, DataManager.get_latest_scan_data, hd, hemp]
    constructor
    · obtain ⟨g, l1, l2, hg, hsplit, hmax, hstrict⟩ :=
        idxmaxBy_first_max (fun r => r.change_percent) data hne
      exact ⟨g, l1, l2, by rw [hgain, hg], hsplit, hmax, hstrict⟩
    · obtain ⟨w, m1, m2, hw, hsplit, hmin, hstrict⟩ :=
        idxminBy_first_min (fun r => r.change_percent) data hne
      exact ⟨w, m1, m2, by rw [hloss, hw], hsplit, hmin, hstrict⟩

/-- An empty `DataManager` used in the C7 witness. -/
def dmNoData : DataManager := DataManager.init

/-- Witness for C7: the empty branch at `dmNoData`, the extrema branch at
`dmAB`. -/
theorem C7_statistics_empty_and_extrema_witness :
    (dmNoData.get_statistics = emptyStats) ∧
    ((∃ g l1 l2, dmAB.get_statistics.top_gainer = some g ∧ snapAB = l1 ++ g :: l2 ∧
        (∀ s ∈ snapAB, s.change_percent ≤ g.change_percent) ∧
        (∀ s ∈ l1, s.change_percent < g.change_percent)) ∧
      (∃ w m1 m2, dmAB.get_statistics.top_loser = some w ∧ snapAB = m1 ++ w :: m2 ∧
        (∀ s ∈ snapAB, w.change_percent ≤ s.change_percent) ∧
        (∀ s ∈ m1, w.change_percent < s.change_percent))) :=
  ⟨(C7_statistics_empty_and_extrema dmNoData).1 (Or.inl rfl),
    (C7_statistics_empty_and_extrema dmAB).2 snapAB rfl (by decide)⟩

/-- Claim C8 counterexample: a cycle whose fetch succeeds with an empty list
appends no summary at all — the scanner state is unchanged and the history
does not grow by one, refuting "exactly one summary after every attempt". -/
theorem C8_empty_success_appends_nothing :
    (StockScanner.init DataManager.init).perform_scan 0 (Except.ok []) 1
        = StockScanner.init DataManager.init ∧
    ¬ (((StockScanner.init DataManager.init).perform_scan 0
          (Except.ok []) 1).data_manager.scan_history.length
        = (StockScanner.init DataManager.init).data_manager.scan_history.length + 1) :=
  ⟨rfl, by decide⟩

/-- Claim C8 amended: every scan cycle whose fetch fails, or succeeds with a
non-empty list, appends exactly one summary; a cycle whose fetch succeeds
with an empty list appends none and changes nothing. -/
theorem C8_one_summary_unless_empty_fetch (s : StockScanner) (t et : ℚ)
    (res : Except String (List QuoteRecord))
    (hcap : s.data_manager.scan_history.length < s.data_manager.max_history_items) :
    (res = Except.ok [] → s.perform_scan t res et = s) ∧
    (res ≠ Except.ok [] →
      ∃ e, (s.perform_scan t res et).data_manager.scan_history
          = s.data_manager.scan_history ++ [e]) := by
  cases res with
  | error msg =>
    constructor
    · intro h
      exact Except.noConfusion h
    · intro _
      exact ⟨⟨et, 0, 0, 0, "Error: " ++ msg⟩,
        DataManager.add_scan_history_under_cap _ _ hcap⟩
  | ok data =>
    cases data with
    | nil => exact ⟨fun _ => rfl, fun h => absurd rfl h⟩
    | cons a l =>
      refine ⟨fun h => absurd (Except.ok.inj h) (List.cons_ne_nil a l), fun _ =>
        ⟨⟨t, (a :: l).length,
          ((a :: l).filter (fun r => decide (0 < r.change_percent))).length,
          ((a :: l).filter (fun r => decide (r.change_percent < 0))).length,
          "Success"⟩, ?_⟩⟩
      have hcond : ¬ (a :: l).isEmpty = true := by simp
      simp only [StockScanner.perform_scan, if_pos hcond]
      exact DataManager.add_scan_history_under_cap _ _ hcap

/-- Witness for the amended C8 at a concrete failing fetch. -/
theorem C8_one_summary_unless_empty_fetch_witness :
    ((Except.error ("down") : Except String (List QuoteRecord)) = Except.ok [] →
      (StockScanner.init DataManager.init).perform_scan 0 (Except.error ("down")) 1
        = StockScanner.init DataManager.init) ∧
    ((Except.error ("down") : Except String (List QuoteRecord)) ≠ Except.ok [] →
      ∃ e, ((StockScanner.init DataManager.init).perform_scan 0
            (Except.error ("down")) 1).data_manager.scan_history
          = (StockScanner.init DataManager.init).data_manager.scan_history ++ [e]) :=
  C8_one_summary_unless_empty_fetch (StockScanner.init DataManager.init) 0 1
    (Except.error ("down")) (by decide)

/-- Claim C9: every record produced by one `fetch_stock_data` call carries the
same `scan_time`, namely the `current_time` read once at the top. -/
theorem C9_snapshot_shares_scan_time (t : ℚ) (rP rC : ℕ → ℚ) (rV : ℕ → ℕ) :
    ∀ r ∈ StockScanner.fetch_stock_data t rP rC rV, r.scan_time = t := by
  intro r hr
  rcases List.mem_map.1 hr with ⟨p, _, rfl⟩
  rfl

/-- The first record of a fetch with constant draw streams, used in the C9
witness. -/
def relianceRecord : QuoteRecord :=
  { symbol := "RELIANCE"
    name := "Reliance Industries Ltd"
    price := pyRound2 100
    change_percent := pyRound2 0
    volume := 100000
    market_cap := "Large Cap"
    sector := "Energy"
    scan_time := 0 }

/-- Witness for C9 at a concrete record of a concrete fetch. -/
theorem C9_snapshot_shares_scan_time_witness : relianceRecord.scan_time = 0 :=
  C9_snapshot_shares_scan_time 0 (fun _ => 100) (fun _ => 0) (fun _ => 100000)
    relianceRecord
    (by
      refine List.mem_map.2
        ⟨(0, ⟨"RELIANCE", "Reliance Industries Ltd", "Energy", "Large Cap"⟩), ?_, rfl⟩
      decide)

/-- The function `roundHalfEven` never rounds below the floor. -/
theorem floor_le_roundHalfEven (y : ℚ) : ⌊y⌋ ≤ roundHalfEven y := by
  unfold roundHalfEven
  by_cases h1 : y - ⌊y⌋ < 1/2
  · rw [if_pos h1]
  · rw [if_neg h1]
    by_cases h2 : (1 : ℚ)/2 < y - ⌊y⌋
    · rw [if_pos h2]
      omega
    · rw [if_neg h2]
      by_cases h3 : ⌊y⌋ % 2 = 0
      · rw [if_pos h3]
      · rw [if_neg h3]
        omega

/-- The function `roundHalfEven` never rounds above the ceiling. -/
theorem roundHalfEven_le_ceil (y : ℚ) : roundHalfEven y ≤ ⌈y⌉ := by
  unfold roundHalfEven
  by_cases h1 : y - ⌊y⌋ < 1/2
  · rw [if_pos h1]
    exact Int.floor_le_ceil y
  · rw [if_neg h1]
    have hlt : (⌊y⌋ : ℚ) < y := by
      have hge : (1 : ℚ)/2 ≤ y - ⌊y⌋ := not_lt.1 h1
      linarith
    have hceil : ⌊y⌋ < ⌈y⌉ := Int.lt_ceil.2 hlt
    by_cases h2 : (1 : ℚ)/2 < y - ⌊y⌋
    · rw [if_pos h2]
      omega
    · rw [if_neg h2]
      by_cases h3 : ⌊y⌋ % 2 = 0
      · rw [if_pos h3]
        exact Int.floor_le_ceil y
      · rw [if_neg h3]
        omega

/-- Rounding to two decimals keeps a value inside any interval with integer
endpoints containing it. -/
theorem pyRound2_mem_intCc (lo hi : ℤ) (x : ℚ) (h1 : (lo : ℚ) ≤ x)
    (h2 : x ≤ (hi : ℚ)) : (lo : ℚ) ≤ pyRound2 x ∧ pyRound2 x ≤ (hi : ℚ) := by
  have hflo : (100 * lo : ℤ) ≤ ⌊100 * x⌋ := by
    rw [Int.le_floor]
    push_cast
    linarith
  have hfhi : ⌈100 * x⌉ ≤ (100 * hi : ℤ) := by
    rw [Int.ceil_le]
    push_cast
    linarith
  have hlo : (100 * lo : ℤ) ≤ roundHalfEven (100 * x) :=
    le_trans hflo (floor_le_roundHalfEven (100 * x))
  have hhi : roundHalfEven (100 * x) ≤ (100 * hi : ℤ) :=
    le_trans (roundHalfEven_le_ceil (100 * x)) hfhi
  constructor
  · rw [pyRound2, le_div_iff₀ (by norm_num : (0 : ℚ) < 100)]
    calc (lo : ℚ) * 100 = ((100 * lo : ℤ) : ℚ) := by push_cast; ring
    _ ≤ ((roundHalfEven (100 * x) : ℤ) : ℚ) := by exact_mod_cast hlo
  · rw [pyRound2, div_le_iff₀ (by norm_num : (0 : ℚ) < 100)]
    calc ((roundHalfEven (100 * x) : ℤ) : ℚ) ≤ ((100 * hi : ℤ) : ℚ) := by
          exact_mod_cast hhi
    _ = (hi : ℚ) * 100 := by push_cast; ring

/-- Claim C10: with draws in the documented generator ranges,
`fetch_stock_data` returns exactly 20 records — prices in [100, 3000],
change percentages in [-5, 5], positive volumes, symbols from the fixed
20-symbol table, which is duplicate-free — so a cycle fed by it always takes
the non-empty branch and increments `total_scans`. -/
theorem C10_fetch_always_twenty_records (t : ℚ) (rP rC : ℕ → ℚ) (rV : ℕ → ℕ)
    (hP : ∀ i, (100 : ℚ) ≤ rP i ∧ rP i ≤ 3000)
    (hC : ∀ i, (-5 : ℚ) ≤ rC i ∧ rC i ≤ 5)
    (hV : ∀ i, 100000 ≤ rV i ∧ rV i ≤ 10000000) :
    (StockScanner.fetch_stock_data t rP rC rV).length = 20 ∧
    StockScanner.fetch_stock_data t rP rC rV ≠ [] ∧
    (∀ r ∈ StockScanner.fetch_stock_data t rP rC rV,
      (100 : ℚ) ≤ r.price ∧ r.price ≤ 3000 ∧
      (-5 : ℚ) ≤ r.change_percent ∧ r.change_percent ≤ 5 ∧
      0 < r.volume ∧ r.symbol ∈ sample_stocks.map StockInfo.symbol) ∧
    (sample_stocks.map StockInfo.symbol).Nodup ∧
    (sample_stocks.map StockInfo.symbol).length = 20 ∧
    (∀ s : StockScanner, ∀ et : ℚ,
      (s.perform_scan t
          (Except.ok (StockScanner.fetch_stock_data t rP rC rV)) et).total_scans
        = s.total_scans + 1) := by
  have hlen : (StockScanner.fetch_stock_data t rP rC rV).length = 20 := by
    simp only [StockScanner.fetch_stock_data, List.length_map, List.enum_length]
    rfl
  have hne : StockScanner.fetch_stock_data t rP rC rV ≠ [] := by
    intro h
    rw [h] at hlen
    exact absurd hlen (by decide)
  refine ⟨hlen, hne, ?_, by decide, by decide, ?_⟩
  · intro r hr
    rcases List.mem_map.1 hr with ⟨p, hp, rfl⟩
    have hprice := pyRound2_mem_intCc 100 3000 (rP p.1)
      (by exact_mod_cast (hP p.1).1) (by exact_mod_cast (hP p.1).2)
    have hchange := pyRound2_mem_intCc (-5) 5 (rC p.1)
      (by exact_mod_cast (hC p.1).1) (by exact_mod_cast (hC p.1).2)
    have hsym : p.2 ∈ sample_stocks := by
      obtain ⟨i, st⟩ := p
      obtain ⟨hi, hst⟩ := List.mem_enum hp
      rw [hst]
      exact List.getElem_mem hi
    refine ⟨by exact_mod_cast hprice.1, by exact_mod_cast hprice.2,
      by exact_mod_cast hchange.1, by exact_mod_cast hchange.2,
      lt_of_lt_of_le (by norm_num) (hV p.1).1,
      List.mem_map.2 ⟨p.2, hsym, rfl⟩⟩
  · intro s et
    have hemp : ¬ (StockScanner.fetch_stock_data t rP rC rV).isEmpty = true := by
      cases hfe : StockScanner.fetch_stock_data t rP rC rV with
      | nil => exact absurd hfe hne
      | cons a l => simp
    simp only [StockScanner.perform_scan, if_pos hemp]

/-- Witness for C10 with constant draw streams at the range endpoints. -/
theorem C10_fetch_always_twenty_records_witness :
    (StockScanner.fetch_stock_data 7 (fun _ => 100) (fun _ => 0)
        (fun _ => 100000)).length = 20 ∧
    StockScanner.fetch_stock_data 7 (fun _ => 100) (fun _ => 0)
        (fun _ => 100000) ≠ [] ∧
    (∀ r ∈ StockScanner.fetch_stock_data 7 (fun _ => 100) (fun _ => 0)
        (fun _ => 100000),
      (100 : ℚ) ≤ r.price ∧ r.price ≤ 3000 ∧
      (-5 : ℚ) ≤ r.change_percent ∧ r.change_percent ≤ 5 ∧
      0 < r.volume ∧ r.symbol ∈ sample_stocks.map StockInfo.symbol) ∧
    (sample_stocks.map StockInfo.symbol).Nodup ∧
    (sample_stocks.map StockInfo.symbol).length = 20 ∧
    (∀ s : StockScanner, ∀ et : ℚ,
      (s.perform_scan 7
          (Except.ok (StockScanner.fetch_stock_data 7 (fun _ => 100) (fun _ => 0)
            (fun _ => 100000))) et).total_scans
        = s.total_scans + 1) :=
  C10_fetch_always_twenty_records 7 (fun _ => 100) (fun _ => 0) (fun _ => 100000)
    (fun _ => by norm_num) (fun _ => by norm_num) (fun _ => by norm_num)

end AutoScan
